import Mathlib

/-!
# Verification development for `pkg/plot/plot.go`

A shallow embedding of `Plot` and `PlotFile`.  Everything the package imports
(fonts, the colour palette, `strconv.ParseFloat`, `plotter.NewLine`, the canvas
backend with its `Draw`, the operating system) is a field of `Deps`; the general
theorems hold for every `Deps`.  The regular-expression engine behind `labelText`
is embedded as a small backtracking matcher with Go's leftmost-first, greedy
semantics.
-/

namespace PlotGo

/-! ## Regular expressions (`regexp`) -/

/-- The line feed, the one character Go's `.` does not match (flag `s` unset). -/
def lineFeed : Char := Char.ofNat 10

/-- Abstract syntax of the regular expressions used by the package.
`cap i r` is the capturing group numbered `i` (from 1, by opening bracket). -/
inductive Regex where
  | empty : Regex
  | lit (c : Char) : Regex
  | dot : Regex
  | star (r : Regex) : Regex
  | cat (r s : Regex) : Regex
  | alt (r s : Regex) : Regex
  | cap (i : Nat) (r : Regex) : Regex
deriving Repr, DecidableEq

/-- Text captured so far by each numbered group; groups that did not take part
in the match hold the empty text, as `FindStringSubmatch` reports them. -/
abbrev Caps := Nat → List Char

/-- No group has captured anything. -/
def Caps.none : Caps := fun _ => []

/-- Record the text of group `i`. -/
def Caps.set (c : Caps) (i : Nat) (t : List Char) : Caps :=
  fun j => if j = i then t else c j

/-- A continuation of the matcher: what is left of the input, and the captures. -/
abbrev Cont := List Char → Caps → Option (List Char × Caps)

/-- Greedy iteration: take one more round of `step` when that consumes input and
the rest of the pattern then matches, otherwise go on with the rest of the
pattern.  `fuel` bounds the number of rounds by the length of the input. -/
def starLoop (step : List Char → Caps → Cont → Option (List Char × Caps)) :
    Nat → List Char → Caps → Cont → Option (List Char × Caps)
  | 0, s, c, k => k s c
  | fuel + 1, s, c, k =>
    match step s c (fun s1 c1 =>
        if s1.length < s.length then starLoop step fuel s1 c1 k else Option.none) with
    | some r => some r
    | Option.none => k s c

/-- Backtracking matcher, anchored at the start of `s`; alternatives are tried
left to right and `star` is greedy, which is Go's leftmost-first rule. -/
def Regex.run : Regex → List Char → Caps → Cont → Option (List Char × Caps)
  | .empty, s, c, k => k s c
  | .lit a, s, c, k =>
    match s with
    | [] => Option.none
    | x :: xs => if x = a then k xs c else Option.none
  | .dot, s, c, k =>
    match s with
    | [] => Option.none
    | x :: xs => if x = lineFeed then Option.none else k xs c
  | .star r, s, c, k => starLoop r.run s.length s c k
  | .cat r q, s, c, k => r.run s c (fun s1 c1 => q.run s1 c1 k)
  | .alt r q, s, c, k =>
    match r.run s c k with
    | some res => some res
    | Option.none => q.run s c k
  | .cap i r, s, c, k =>
    r.run s c (fun s1 c1 => k s1 (c1.set i (s.take (s.length - s1.length))))

/-- Number of capturing groups of a pattern (`NumSubexp`). -/
def Regex.numSubexp : Regex → Nat
  | .empty => 0
  | .lit _ => 0
  | .dot => 0
  | .star r => r.numSubexp
  | .cat r q => r.numSubexp + q.numSubexp
  | .alt r q => r.numSubexp + q.numSubexp
  | .cap _ r => r.numSubexp + 1

/-- Match anchored at the start of `s`: the matched text and the captures. -/
def Regex.matchHere (r : Regex) (s : List Char) : Option (List Char × Caps) :=
  match r.run s Caps.none (fun s1 c1 => some (s1, c1)) with
  | some (rest, c) => some (s.take (s.length - rest.length), c)
  | Option.none => Option.none

/-- Leftmost match: the first start position at which the pattern matches. -/
def Regex.search (r : Regex) : List Char → Option (List Char × Caps)
  | [] => r.matchHere []
  | x :: xs =>
    match r.matchHere (x :: xs) with
    | some res => some res
    | Option.none => r.search xs

/-- Method `(*Regexp).FindStringSubmatch`: `none` is Go's `nil`; otherwise element 0 is
the text of the leftmost match and element `i` the text of group `i`. -/
def Regex.FindStringSubmatch (r : Regex) (s : String) : Option (List String) :=
  match r.search s.data with
  | some (whole, c) =>
    some (String.mk whole :: (List.range r.numSubexp).map (fun i => String.mk (c (i + 1))))
  | Option.none => Option.none

/-- Declaration `var labelText = regexp.MustCompile("(.*)")` (plot.go:20): one capturing
group around a greedy repetition of `.`. -/
def labelText : Regex := .cap 1 (.star .dot)

/-! ## Data model (`model`, `vg`, `plot`) -/

/-- Type `model.Time`: milliseconds since the epoch. -/
structure Time where
  ms : Int
deriving DecidableEq, Repr

/-- Method `Time.Unix`: whole seconds since the epoch (Go integer division by 1000). -/
def Time.Unix (t : Time) : Int := Int.tdiv t.ms 1000

/-- Modelled from the spec: the declaration of the sample value type lives in
the imported `model` package, not in this repository; the spec's data model has
the value as a decimal number encoded as text that is parsed on read. -/
structure SampleValue where
  text : String
deriving DecidableEq, Repr

/-- Method `SampleValue.String`: the raw text of the value. -/
def SampleValue.String (v : SampleValue) : String := v.text

/-- Type `model.SamplePair`: one sample. -/
structure SamplePair where
  Timestamp : Time
  Value : SampleValue
deriving DecidableEq, Repr

/-- Type `model.Metric`: label names with their values. -/
abbrev Metric := List (String × String)

/-- Type `model.SampleStream`: one series. -/
structure SampleStream where
  Metric : Metric
  Values : List SamplePair
deriving DecidableEq, Repr

/-- Type `model.Matrix`: the series in iteration order. -/
abbrev Matrix := List SampleStream

/-- Units of `vg.Length`. -/
inductive LengthUnit where
  | point
  | millimeter
  | centimeter
deriving DecidableEq, Repr

/-- A `vg.Length`, kept symbolic: `coeff` times `unit`. -/
structure Length where
  coeff : Int
  unit : LengthUnit
deriving DecidableEq, Repr

/-- Negation `-l` of a length. -/
def Length.neg (l : Length) : Length := { l with coeff := -l.coeff }

/-- Type `color.RGBA`. -/
structure Color where
  R : Nat
  G : Nat
  B : Nat
  A : Nat
deriving DecidableEq, Repr

/-- What `vg.MakeFont` returns. -/
structure Font where
  name : String
  size : Length
deriving DecidableEq, Repr

/-- Method `Font.Name`. -/
def Font.Name (f : Font) : String := f.name

/-- Type `plotter.Line`: the points and the two line-style fields `Plot` sets. -/
structure Line (F : Type) where
  XYs : List (F × F)
  Width : Length
  Color : Color
deriving DecidableEq, Repr

/-- One entry of `plot.Legend`: its text and the thumbnails drawn next to it. -/
structure LegendEntry (F : Type) where
  text : String
  thumbs : List (Line F)
deriving DecidableEq, Repr

/-- The text handler of a text style (`text.Handler`), which measures and
typesets text. -/
inductive TextHandler where
  | standard
deriving DecidableEq, Repr

/-- Type `draw.TextStyle`, as far as `Plot` touches it: the typeface of its font
and its handler; `none` is Go's nil interface value, which is what a struct
literal that names only `Font` leaves in the field. -/
structure TextStyle where
  Typeface : String
  Handler : Option TextHandler
deriving DecidableEq, Repr

/-- The `plot.Plot` value `p`: the fields `Plot` assigns, the plotters added by
`p.Add` and the entries added by `p.Legend.Add`. -/
structure Scene (F : Type) where
  TitleText : String
  TitleStyle : TextStyle
  TitlePadding : Length
  XTickFormat : String
  XTickLabel : TextStyle
  YTickLabel : TextStyle
  LegendStyle : TextStyle
  LegendTop : Bool
  LegendYOffs : Length
  plotters : List (Line F)
  legend : List (LegendEntry F)
deriving DecidableEq, Repr

/-- Call `plot.New()`: every text style starts with the default handler. -/
def Scene.New (F : Type) : Scene F :=
  { TitleText := "", TitleStyle := ⟨"", some .standard⟩, TitlePadding := ⟨0, .point⟩,
    XTickFormat := "", XTickLabel := ⟨"", some .standard⟩,
    YTickLabel := ⟨"", some .standard⟩,
    LegendStyle := ⟨"", some .standard⟩, LegendTop := false, LegendYOffs := ⟨0, .point⟩,
    plotters := [], legend := [] }

/-- Call `p.Add(l)`. -/
def Scene.Add {F : Type} (p : Scene F) (l : Line F) : Scene F :=
  { p with plotters := p.plotters ++ [l] }

/-- Call `p.Legend.Add(name, l)`. -/
def Scene.LegendAdd {F : Type} (p : Scene F) (name : String) (l : Line F) : Scene F :=
  { p with legend := p.legend ++ [{ text := name, thumbs := [l] }] }

/-- The canvas made by `draw.NewFormattedCanvas`. -/
structure Canvas where
  width : Length
  height : Length
  format : String
deriving DecidableEq, Repr

/-- The value `Plot` returns: the canvas `c` after `p.Draw` drew the scene into
it, cropped by `left`, `right`, `bottom`, `top`. -/
structure Chart (F : Type) where
  canvas : Canvas
  left : Length
  right : Length
  bottom : Length
  top : Length
  scene : Scene F
deriving DecidableEq, Repr

/-- A file system: the content of every regular file, by path. -/
structure FS where
  files : String → Option (List Nat)

/-- How a call ends when it does not succeed: one constructor for each
`fmt.Errorf` of `Plot`, `os` for an error of the operating system that
`PlotFile` passes on, `indexOutOfRange` for the run-time panic of an index
expression, and `drawPanic` for a run-time panic raised inside `p.Draw`. -/
inductive Failure where
  | loadFont (cause : String)
  | getPalette (cause : String)
  | sampleNotFloat (raw : String)
  | createLine (cause : String)
  | createCanvas (cause : String)
  | os (cause : String)
  | indexOutOfRange
  | drawPanic (msg : String)
deriving DecidableEq, Repr

/-- The message of the error value. -/
def Failure.Error : Failure → String
  | .loadFont cause => "failed to load font: " ++ cause
  | .getPalette cause => "failed to get color palette: " ++ cause
  | .sampleNotFloat raw => "sample value not float: " ++ raw
  | .createLine cause => "failed to create line: " ++ cause
  | .createCanvas cause => "failed to create canvas: " ++ cause
  | .os cause => cause
  | .indexOutOfRange => "runtime error: index out of range"
  | .drawPanic msg => "runtime error: " ++ msg

/-- The imported packages and the operating system, as far as `Plot` and
`PlotFile` use them.  `F` stands for `float64`. -/
structure Deps (F : Type) where
  /-- Call `vg.MakeFont(name, size)`. -/
  makeFont : String → Length → Except String Font
  /-- Call `brewer.GetPalette(brewer.TypeAny, name, n)` followed by `Colors()`. -/
  getPalette : String → Nat → Except String (List Color)
  /-- The conversion `float64(n)` of an `int64`. -/
  float64 : Int → F
  /-- Call `strconv.ParseFloat(s, 64)`. -/
  parseFloat : String → Except String F
  /-- The error of `plotter.NewLine(data)`, if any; the line holds `data`. -/
  newLineErr : List (F × F) → Option String
  /-- Method `Metric.String`: the rendering of the labels of a series. -/
  metricString : Metric → String
  /-- The error of `draw.NewFormattedCanvas(w, h, format)`, if any. -/
  canvasErr : Length → Length → String → Option String
  /-- The run-time panic of `p.Draw` on the cropped canvas (plot.go:89), if
  any. -/
  drawPanic : Chart F → Option String
  /-- The bytes `WriteTo` writes for a drawn chart. -/
  encode : Chart F → List Nat
  /-- The error of `os.OpenFile(name, O_CREATE|O_WRONLY, 0666)`, if any. -/
  openErr : FS → String → Option String
  /-- The failure of the write: how many bytes went out before the error. -/
  writeErr : FS → String → List Nat → Option (Nat × String)

/-! ## `Plot` -/

/-- Constant `paletteSize := 8` (plot.go:47). -/
def paletteSize : Nat := 8

/-- Lines 55-63: the points of one series, in sample order; the first value
that does not parse ends the build with its raw text. -/
def buildXYs {F : Type} (d : Deps F) : List SamplePair → Except Failure (List (F × F))
  | [] => .ok []
  | v :: vs =>
    let x := d.float64 v.Timestamp.Unix
    match d.parseFloat v.Value.String with
    | .error _ => .error (.sampleNotFloat v.Value.String)
    | .ok f =>
      match buildXYs d vs with
      | .error e => .error e
      | .ok rest => .ok ((x, f) :: rest)

/-- Lines 55-70: the line of the series at position `s`. -/
def seriesLine {F : Type} (d : Deps F) (colors : List Color) (s : Nat)
    (sample : SampleStream) : Except Failure (Line F) :=
  match buildXYs d sample.Values with
  | .error e => .error e
  | .ok data =>
    match d.newLineErr data with
    | some err => .error (.createLine err)
    | none =>
      match colors[s % paletteSize]? with
      | none => .error .indexOutOfRange
      | some c => .ok { XYs := data, Width := ⟨1, .point⟩, Color := c }

/-- Lines 73-78: the legend entry of a series, when there is more than one
series and the label matches. -/
def seriesLegend {F : Type} (d : Deps F) (re : Regex) (n : Nat) (sample : SampleStream)
    (l : Line F) (p : Scene F) : Except Failure (Scene F) :=
  if n > 1 then
    match re.FindStringSubmatch (d.metricString sample.Metric) with
    | none => .ok p
    | some m =>
      match m[1]? with
      | none => .error .indexOutOfRange
      | some name => .ok (p.LegendAdd name l)
  else .ok p

/-- Lines 54-79: the loop over the series; `s` is the index of the head of the
list, `n` is `len(metrics)`. -/
def plotLoop {F : Type} (d : Deps F) (re : Regex) (n : Nat) (colors : List Color) :
    Nat → List SampleStream → Scene F → Except Failure (Scene F)
  | _, [], p => .ok p
  | s, sample :: rest, p =>
    match seriesLine d colors s sample with
    | .error e => .error e
    | .ok l =>
      match seriesLegend d re n sample l (p.Add l) with
      | .error e => .error e
      | .ok p1 => plotLoop d re n colors (s + 1) rest p1

/-- Lines 36-44: the settings of the plot, given the two fonts.  Lines 37 and 42
assign a whole `draw.TextStyle` literal that names only `Font`, so the handler of
the title style and of the legend style becomes nil; lines 40 and 41 assign the
field `Font` alone, so the tick labels keep their handler. -/
def styled {F : Type} (title : String) (titleFont textFont : Font) : Scene F :=
  { Scene.New F with
    TitleText := title
    TitleStyle := { Typeface := titleFont.Name, Handler := none }
    TitlePadding := ⟨2, .centimeter⟩
    XTickFormat := "2006-01-02\n15:04"
    XTickLabel := { (Scene.New F).XTickLabel with Typeface := textFont.Name }
    YTickLabel := { (Scene.New F).YTickLabel with Typeface := textFont.Name }
    LegendStyle := { Typeface := textFont.Name, Handler := none }
    LegendTop := true
    LegendYOffs := ⟨15, .millimeter⟩ }

/-- The function `Plot` (plot.go:24-92).  `re` is the value of the package
variable `labelText` at the time of the call. -/
def Plot {F : Type} (d : Deps F) (re : Regex) (metrics : Matrix) (title format : String) :
    Except Failure (Chart F) :=
  match d.makeFont "Helvetica-Bold" ⟨1, .centimeter⟩ with
  | .error err => .error (.loadFont err)
  | .ok titleFont =>
    match d.makeFont "Helvetica" ⟨3, .millimeter⟩ with
    | .error err => .error (.loadFont err)
    | .ok textFont =>
      match d.getPalette "Dark2" paletteSize with
      | .error err => .error (.getPalette err)
      | .ok colors =>
        match plotLoop d re metrics.length colors 0 metrics (styled title titleFont textFont) with
        | .error e => .error e
        | .ok p =>
          let margin : Length := ⟨6, .millimeter⟩
          let width : Length := ⟨24, .centimeter⟩
          let height : Length := ⟨20, .centimeter⟩
          match d.canvasErr width height format with
          | some err => .error (.createCanvas err)
          | none =>
            let c : Chart F :=
              { canvas := { width := width, height := height, format := format },
                left := margin, right := margin.neg, bottom := margin, top := margin.neg,
                scene := p }
            match d.drawPanic c with
            | some msg => .error (.drawPanic msg)
            | none => .ok c

/-! ## `PlotFile` -/

/-- Writing `b` at offset 0 of a file holding `old`: the bytes of `old` beyond
the end of `b` stay. -/
def overwrite (old b : List Nat) : List Nat := b ++ old.drop b.length

/-- The file system with the content of `name` replaced. -/
def FS.put (fs : FS) (name : String) (content : List Nat) : FS :=
  { files := fun q => if q = name then some content else fs.files q }

/-- The function `PlotFile` (plot.go:95-112): the error it returns (`none` is
`nil`) and the file system it leaves.  The flags of `OpenFile` are
`O_CREATE|O_WRONLY`: a missing file is created empty, an existing one is opened
as it is, and the write starts at offset 0. -/
def PlotFile {F : Type} (d : Deps F) (re : Regex) (metrics : Matrix)
    (title format name : String) (fs : FS) : Option Failure × FS :=
  match Plot d re metrics title format with
  | .error e => (some e, fs)
  | .ok w =>
    match d.openErr fs name with
    | some err => (some (.os err), fs)
    | none =>
      let old := (fs.files name).getD []
      match d.writeErr fs name (d.encode w) with
      | some (k, err) => (some (.os err), fs.put name (overwrite old ((d.encode w).take k)))
      | none => (none, fs.put name (overwrite old (d.encode w)))

/-! ## Reference instances of the dependencies

Used to evaluate the definitions on concrete inputs. -/

/-- A decimal number `mantissa / 10 ^ scale`. -/
structure Dec where
  mantissa : Int
  scale : Nat
deriving DecidableEq, Repr

/-- Reference stand-in for `float64`: a decimal number (kept exact, not
rounded), an infinity, or NaN. -/
inductive Float64 where
  | fin (v : Dec)
  | inf (negative : Bool)
  | nan
deriving DecidableEq, Repr

/-- Whether a character is a decimal digit. -/
def isDigit (c : Char) : Bool := decide (48 ≤ c.toNat) && decide (c.toNat ≤ 57)

/-- An ASCII capital letter turned into its small letter. -/
def toLower (c : Char) : Char :=
  if 65 ≤ c.toNat ∧ c.toNat ≤ 90 then Char.ofNat (c.toNat + 32) else c

/-- The value of a run of decimal digits; `none` when a character is no digit. -/
def digitsValue : List Char → Nat → Option Nat
  | [], acc => some acc
  | c :: cs, acc =>
    if 48 ≤ c.toNat ∧ c.toNat ≤ 57 then digitsValue cs (acc * 10 + (c.toNat - 48)) else none

/-- How `%q` writes one character: the double quote, the backslash, line
feed, carriage return and tabulator are escaped.  Other control characters,
which `%q` escapes too, are copied here. -/
def quoteChar (c : Char) : List Char :=
  if c = Char.ofNat 34 then [Char.ofNat 92, Char.ofNat 34]
  else if c = Char.ofNat 92 then [Char.ofNat 92, Char.ofNat 92]
  else if c = Char.ofNat 10 then [Char.ofNat 92, 'n']
  else if c = Char.ofNat 13 then [Char.ofNat 92, 'r']
  else if c = Char.ofNat 9 then [Char.ofNat 92, 't']
  else [c]

/-- Go's `%q`: the text between double quotes, escaped. -/
def goQuote (s : String) : String :=
  String.mk (Char.ofNat 34 :: ((s.data.map quoteChar).flatten ++ [Char.ofNat 34]))

/-- The least magnitude that rounds to an infinity in `float64`, which is
`2 ^ 1024 - 2 ^ 970`. -/
def overflowBound : Nat :=
  179769313486231580793728971405303415079934132710037826936173778980444968292764750946649017977587207096330286416692887910946555547851940402630657488671505820681908902000708383676273854845817711531764475730270069855571366959622842914819860834936475292719074168444365510704342711559699508093042880177904174497792

/-- The error value of `strconv.ParseFloat` on the text `s`. -/
def parseError (s : String) (what : String) : String :=
  "strconv.ParseFloat: parsing " ++ goQuote s ++ ": " ++ what

/-- The number `m * 10 ^ (ex - scale)` with its sign, or the range error when
its magnitude rounds to an infinity; `len` bounds the number of digits of `m`. -/
def decimalValue (s : String) (negative : Bool) (m len scale : Nat) (ex : Int) :
    Except String Float64 :=
  let sgn : Int := if negative then -1 else 1
  if m = 0 then .ok (.fin ⟨0, 0⟩)
  else if (scale : Int) ≤ ex then
    let k := (ex - scale).toNat
    if 400 < k then .error (parseError s "value out of range")
    else if overflowBound ≤ m * 10 ^ k then .error (parseError s "value out of range")
    else .ok (.fin ⟨sgn * ((m * 10 ^ k : Nat) : Int), 0⟩)
  else
    let k := ((scale : Int) - ex).toNat
    if len ≤ k then .ok (.fin ⟨sgn * (m : Int), k⟩)
    else if overflowBound * 10 ^ k ≤ m then .error (parseError s "value out of range")
    else .ok (.fin ⟨sgn * (m : Int), k⟩)

/-- Reference `strconv.ParseFloat(s, 64)`: the infinities and NaN by name, and
decimal numbers with an optional sign, fraction and exponent; a number too
large for `float64` is the range error.  Not covered: hexadecimal numbers and
digit separators, which are syntax errors here. -/
def parseFloat64 (s : String) : Except String Float64 :=
  let cs := s.data
  let negative := cs.head? = some '-'
  let body := if cs.head? = some '-' ∨ cs.head? = some '+' then cs.tail else cs
  if body.map toLower = "inf".data ∨ body.map toLower = "infinity".data then
    .ok (.inf negative)
  else if cs.map toLower = "nan".data then .ok .nan
  else
    let whole := body.takeWhile isDigit
    let r1 := body.dropWhile isDigit
    let frac := if r1.head? = some '.' then r1.tail.takeWhile isDigit else []
    let r2 := if r1.head? = some '.' then r1.tail.dropWhile isDigit else r1
    if whole.length + frac.length = 0 then .error (parseError s "invalid syntax")
    else
      match digitsValue (whole ++ frac) 0, r2 with
      | some m, [] => decimalValue s negative m (whole ++ frac).length frac.length 0
      | some m, c :: r3 =>
        let eneg := r3.head? = some '-'
        let ed := if r3.head? = some '-' ∨ r3.head? = some '+' then r3.tail else r3
        if (c = 'e' ∨ c = 'E') ∧ ed ≠ [] then
          match digitsValue ed 0 with
          | some e =>
            decimalValue s negative m (whole ++ frac).length frac.length
              (if eneg then -(e : Int) else (e : Int))
          | none => .error (parseError s "invalid syntax")
        else .error (parseError s "invalid syntax")
      | none, _ => .error (parseError s "invalid syntax")

/-- Reference `plotter.NewLine`: the error of `plotter.CheckFloats` on the first
coordinate that is NaN or infinite. -/
def checkFloats : List (Float64 × Float64) → Option String
  | [] => none
  | (x, y) :: rest =>
    match x, y with
    | .nan, _ => some "plotter: NaN data point"
    | .inf _, _ => some "plotter: infinite data point"
    | .fin _, .nan => some "plotter: NaN data point"
    | .fin _, .inf _ => some "plotter: infinite data point"
    | .fin _, .fin _ => checkFloats rest

/-- The eight colours of the ColorBrewer palette Dark2. -/
def dark2 : List Color :=
  [⟨27, 158, 119, 255⟩, ⟨217, 95, 2, 255⟩, ⟨117, 112, 179, 255⟩, ⟨231, 41, 138, 255⟩,
   ⟨102, 166, 30, 255⟩, ⟨230, 171, 2, 255⟩, ⟨166, 118, 29, 255⟩, ⟨102, 102, 102, 255⟩]

/-- The format tokens `draw.NewFormattedCanvas` knows. -/
def knownFormats : List String :=
  ["eps", "jpg", "jpeg", "pdf", "png", "svg", "tex", "tif", "tiff"]

/-- Four bytes, most significant first. -/
def be32 (n : Nat) : List Nat :=
  [n / 16777216 % 256, n / 65536 % 256, n / 256 % 256, n % 256]

/-- A PNG chunk: length, tag, data, and a checksum left zero. -/
def pngChunk (tag data : List Nat) : List Nat :=
  be32 data.length ++ tag ++ data ++ [0, 0, 0, 0]

/-- Stand-in for the encoder, which this development does not model.  For
`png`: the PNG signature and the chunks IHDR, IDAT and IEND around a body that
only counts the lines and legend entries, 59 bytes, which is less than any
encoder writes for this canvas.  For other formats: one byte and the counts. -/
def encodeStandIn {F : Type} (ch : Chart F) : List Nat :=
  if ch.canvas.format = "png" then
    [137, 80, 78, 71, 13, 10, 26, 10]
      ++ pngChunk [73, 72, 68, 82] (be32 907 ++ be32 756 ++ [8, 6, 0, 0, 0])
      ++ pngChunk [73, 68, 65, 84] [ch.scene.plotters.length % 256, ch.scene.legend.length % 256]
      ++ pngChunk [73, 69, 78, 68] []
  else [60, ch.scene.plotters.length % 256, ch.scene.legend.length % 256]

/-- Insertion into a sorted list of texts. -/
def insertSorted (a : String) : List String → List String
  | [] => [a]
  | b :: bs => if b < a then b :: insertSorted a bs else a :: b :: bs

/-- Go's `sort.Strings`. -/
def sortStrings (xs : List String) : List String := xs.foldr insertSorted []

/-- Reference `Metric.String`: the value of `__name__` as it is, then, between
braces, the other labels as name, equals sign and `%q` of the value, sorted and
joined by comma and blank; a metric with neither is a pair of braces. -/
def renderMetric (m : Metric) : String :=
  let others := sortStrings
    ((m.filter (fun kv => kv.1 != "__name__")).map (fun kv => kv.1 ++ "=" ++ goQuote kv.2))
  match m.lookup "__name__", others with
  | some name, [] => name
  | none, [] => "\x7b\x7d"
  | name, _ => name.getD "" ++ "\x7b" ++ ", ".intercalate others ++ "\x7d"

/-- The handlers `Draw` calls: that of the title style when there is a title,
and that of the legend style.  Calling a nil handler is a nil pointer
dereference. -/
def nilHandlerCalled {F : Type} (p : Scene F) : Bool :=
  (p.TitleText != "" && p.TitleStyle.Handler.isNone) || p.LegendStyle.Handler.isNone

/-- Reference dependencies: the two Helvetica faces and Dark2 exist, a point
list without NaN and infinities makes a line, the known formats have a canvas,
`Draw` panics when it calls a nil handler, and the operating system opens every
path and completes every write. -/
def refDeps : Deps Float64 :=
  { makeFont := fun name size =>
      if name = "Helvetica" ∨ name = "Helvetica-Bold" then .ok { name := name, size := size }
      else .error "unknown font"
    getPalette := fun name n =>
      if name = "Dark2" ∧ n = 8 then .ok dark2 else .error "no such palette"
    float64 := fun n => .fin { mantissa := n, scale := 0 }
    parseFloat := parseFloat64
    newLineErr := checkFloats
    metricString := renderMetric
    canvasErr := fun _ _ format =>
      if format ∈ knownFormats then none else some ("unsupported format: " ++ goQuote format)
    drawPanic := fun ch =>
      if nilHandlerCalled ch.scene then some "invalid memory address or nil pointer dereference"
      else none
    encode := encodeStandIn
    openErr := fun _ _ => none
    writeErr := fun _ _ _ => none }

/-- The reference dependencies with a `Draw` that completes on every scene: a
backend that measures text without the handler of the style.  It is the
instance on which a successful `Plot` can be evaluated. -/
def lenientDeps : Deps Float64 := { refDeps with drawPanic := fun _ => none }

/-- A file of one mebibyte of zero bytes. -/
def mebibyte : List Nat := List.replicate 1048576 0

/-- A sample at second `t` with value text `v`. -/
def sampleAt (t : Int) (v : String) : SamplePair :=
  { Timestamp := ⟨t * 1000⟩, Value := ⟨v⟩ }

/-- A series named `name` with the given samples. -/
def seriesNamed (name : String) (vs : List SamplePair) : SampleStream :=
  { Metric := [("__name__", name)], Values := vs }

/-- The pattern `u(.*)`, used to evaluate `Plot` with a rule that some labels
do not match. -/
def afterU : Regex := .cat (.lit 'u') (.cap 1 (.star .dot))

/-- A file system holding one file. -/
def FS.single (name : String) (content : List Nat) : FS :=
  { files := fun q => if q = name then some content else none }

/-- The empty file system. -/
def FS.void : FS := { files := fun _ => none }

/-! ## Vocabulary of the specification -/

/-- The part of a text before its first line feed (the whole text when it has
none). -/
def firstLine (s : String) : String :=
  String.mk (s.data.takeWhile (fun c => c != lineFeed))

/-- The legend entry the specification gives to a series drawn as line `x.2`:
when the rendered label matches the rule, the text of the first captured group,
bound to that line; no entry when the label does not match. -/
def legendEntryOf {F : Type} (d : Deps F) (re : Regex) (x : SampleStream × Line F) :
    Option (LegendEntry F) :=
  match re.FindStringSubmatch (d.metricString x.1.Metric) with
  | none => none
  | some m =>
    match m[1]? with
    | none => none
    | some name => some { text := name, thumbs := [x.2] }

/-- The backend's `Draw` calls the handler of the title style when there is a
title, so that it panics when that handler is nil. -/
def DrawCallsTitleHandler {F : Type} (d : Deps F) : Prop :=
  ∀ ch : Chart F, ch.scene.TitleText ≠ "" → ch.scene.TitleStyle.Handler = none →
    ∃ msg, d.drawPanic ch = some msg

/-- Every value text of the series parses. -/
def AllParse {F : Type} (d : Deps F) (vs : List SamplePair) : Prop :=
  ∀ v ∈ vs, ∃ y, d.parseFloat v.Value.String = .ok y

/-- Line construction succeeds on the points of the series. -/
def LineBuilds {F : Type} (d : Deps F) (sample : SampleStream) : Prop :=
  ∀ data, buildXYs d sample.Values = .ok data → d.newLineErr data = none

/-! ## The default pattern -/

theorem run_dot_nil (c : Caps) (k : Cont) : Regex.dot.run [] c k = none := rfl

theorem run_dot_cons (x : Char) (xs : List Char) (c : Caps) (k : Cont) :
    Regex.dot.run (x :: xs) c k = if x = lineFeed then none else k xs c := rfl

theorem run_labelText (s : List Char) (c : Caps) (k : Cont) :
    labelText.run s c k = starLoop Regex.dot.run s.length s c
      (fun s1 c1 => k s1 (c1.set 1 (s.take (s.length - s1.length)))) := rfl

/-- A greedy run of `.` in front of a continuation that accepts everything
stops at the first line feed. -/
theorem starLoop_dot (k : Cont) (hk : ∀ s c, (k s c).isSome = true) :
    ∀ (s : List Char) (n : Nat) (c : Caps), s.length ≤ n →
      starLoop Regex.dot.run n s c k = k (s.dropWhile (fun x => x != lineFeed)) c := by
  intro s
  induction s with
  | nil =>
    intro n c _
    cases n with
    | zero => simp [starLoop]
    | succ m => simp [starLoop, run_dot_nil]
  | cons x xs ih =>
    intro n c hn
    cases n with
    | zero => simp at hn
    | succ m =>
      have hm : xs.length ≤ m := by simpa using hn
      by_cases hx : x = lineFeed
      · simp [starLoop, run_dot_cons, hx]
      · have hsome := hk (xs.dropWhile (fun x => x != lineFeed)) c
        obtain ⟨r, hr⟩ := Option.isSome_iff_exists.mp hsome
        simp [starLoop, run_dot_cons, hx, ih m c hm, hr]

theorem take_sub_dropWhile (p : Char → Bool) (s : List Char) :
    s.take (s.length - (s.dropWhile p).length) = s.takeWhile p := by
  have h := List.takeWhile_append_dropWhile p s
  have hl := congrArg List.length h
  simp only [List.length_append] at hl
  have hk : s.length - (s.dropWhile p).length = (s.takeWhile p).length := by omega
  rw [hk]
  have t : (s.takeWhile p ++ s.dropWhile p).take (s.takeWhile p).length = s.takeWhile p := by
    exact List.take_left' rfl
  rw [h] at t
  exact t

theorem labelText_matchHere (s : List Char) :
    labelText.matchHere s =
      some (s.takeWhile (fun x => x != lineFeed),
        Caps.set Caps.none 1 (s.takeWhile (fun x => x != lineFeed))) := by
  unfold Regex.matchHere
  rw [run_labelText, starLoop_dot _ (by intro s c; rfl) s s.length Caps.none (le_refl _)]
  simp only [take_sub_dropWhile]

theorem labelText_search (s : List Char) :
    labelText.search s =
      some (s.takeWhile (fun x => x != lineFeed),
        Caps.set Caps.none 1 (s.takeWhile (fun x => x != lineFeed))) := by
  cases s with
  | nil => rw [Regex.search, labelText_matchHere]
  | cons x xs => rw [Regex.search, labelText_matchHere]

/-- The default pattern matches every text; the match and its group are the
part of the text before the first line feed. -/
theorem labelText_find (s : String) :
    labelText.FindStringSubmatch s = some [firstLine s, firstLine s] := by
  unfold Regex.FindStringSubmatch
  rw [labelText_search]
  simp [labelText, Regex.numSubexp, Caps.set, firstLine, List.range_succ]

theorem firstLine_eq_self (s : String) (h : lineFeed ∉ s.data) : firstLine s = s := by
  unfold firstLine
  have : s.data.takeWhile (fun c => c != lineFeed) = s.data := by
    rw [List.takeWhile_eq_self_iff]
    intro c hc
    simp
    rintro rfl
    exact h hc
  rw [this]

/-! ## The points of a series -/

theorem buildXYs_of_parse {F : Type} (d : Deps F) :
    ∀ vs : List SamplePair, AllParse d vs →
      ∃ pts, buildXYs d vs = .ok pts ∧ pts.length = vs.length ∧
        ∀ (k : Nat) (v : SamplePair), vs[k]? = some v →
          ∃ y, d.parseFloat v.Value.String = .ok y ∧
            pts[k]? = some (d.float64 v.Timestamp.Unix, y) := by
  intro vs
  induction vs with
  | nil =>
    intro _
    exact ⟨[], rfl, rfl, by intro k v h; simp at h⟩
  | cons a as ih =>
    intro h
    obtain ⟨y, hy⟩ := h a (List.mem_cons_self a as)
    obtain ⟨pts, hpts, hlen, hk⟩ := ih (fun v hv => h v (List.mem_cons_of_mem a hv))
    refine ⟨(d.float64 a.Timestamp.Unix, y) :: pts, ?_, ?_, ?_⟩
    · simp [buildXYs, hy, hpts]
    · simp [hlen]
    · intro k v hv
      cases k with
      | zero =>
        simp at hv
        subst hv
        exact ⟨y, hy, by simp⟩
      | succ j =>
        simp at hv
        obtain ⟨y2, hy2, hp⟩ := hk j v hv
        exact ⟨y2, hy2, by simpa using hp⟩

theorem buildXYs_bad {F : Type} (d : Deps F) (v : SamplePair) (vs2 : List SamplePair)
    (e : String) (hv : d.parseFloat v.Value.String = .error e) :
    ∀ vs1 : List SamplePair, AllParse d vs1 →
      buildXYs d (vs1 ++ v :: vs2) = .error (.sampleNotFloat v.Value.String) := by
  intro vs1
  induction vs1 with
  | nil =>
    intro _
    simp [buildXYs, hv]
  | cons a as ih =>
    intro h
    obtain ⟨y, hy⟩ := h a (List.mem_cons_self a as)
    have := ih (fun x hx => h x (List.mem_cons_of_mem a hx))
    simp [buildXYs, hy, this]

/-! ## One series -/

theorem seriesLine_ok_inv {F : Type} (d : Deps F) (colors : List Color) (s : Nat)
    (sample : SampleStream) (l : Line F) (h : seriesLine d colors s sample = .ok l) :
    ∃ data c, buildXYs d sample.Values = .ok data ∧ d.newLineErr data = none ∧
      colors[s % paletteSize]? = some c ∧ l = { XYs := data, Width := ⟨1, .point⟩, Color := c } := by
  unfold seriesLine at h
  split at h
  · cases h
  · rename_i data hdata
    split at h
    · cases h
    · rename_i hnl
      split at h
      · cases h
      · rename_i c hc
        injection h with h
        exact ⟨data, c, hdata, hnl, hc, h.symm⟩

theorem seriesLine_total {F : Type} (d : Deps F) (colors : List Color) (s : Nat)
    (sample : SampleStream) (hlen : colors.length = paletteSize)
    (hp : AllParse d sample.Values) (hl : LineBuilds d sample) :
    ∃ l, seriesLine d colors s sample = .ok l := by
  obtain ⟨pts, hpts, _, _⟩ := buildXYs_of_parse d sample.Values hp
  have hnl := hl pts hpts
  have hlt : s % paletteSize < colors.length := by
    rw [hlen]; exact Nat.mod_lt _ (by decide)
  refine ⟨{ XYs := pts, Width := ⟨1, .point⟩, Color := colors[s % paletteSize] }, ?_⟩
  simp [seriesLine, hpts, hnl, List.getElem?_eq_getElem hlt]

theorem seriesLegend_le_one {F : Type} (d : Deps F) (re : Regex) (n : Nat)
    (sample : SampleStream) (l : Line F) (p : Scene F) (hn : n ≤ 1) :
    seriesLegend d re n sample l p = .ok p := by
  unfold seriesLegend
  rw [if_neg (by omega)]

theorem seriesLegend_labelText {F : Type} (d : Deps F) (n : Nat)
    (sample : SampleStream) (l : Line F) (p : Scene F) (hn : 1 < n) :
    seriesLegend d labelText n sample l p
      = .ok (p.LegendAdd (firstLine (d.metricString sample.Metric)) l) := by
  unfold seriesLegend
  rw [if_pos hn, labelText_find]
  simp

/-- A successful legend step leaves the plotters and the title alone and appends
the entry of the specification, when there is more than one series. -/
theorem seriesLegend_ok_inv {F : Type} (d : Deps F) (re : Regex) (n : Nat)
    (sample : SampleStream) (l : Line F) (p q : Scene F)
    (h : seriesLegend d re n sample l p = .ok q) :
    q.plotters = p.plotters ∧ q.TitleText = p.TitleText ∧
      q.legend = p.legend ++ (if 1 < n then (legendEntryOf d re (sample, l)).toList else []) ∧
      (1 < n → ∀ m, re.FindStringSubmatch (d.metricString sample.Metric) = some m →
        ∃ name, m[1]? = some name) := by
  unfold seriesLegend at h
  by_cases hn : 1 < n
  · rw [if_pos hn] at h
    simp only [if_pos hn, legendEntryOf]
    split at h
    · rename_i hm
      injection h with h
      subst h
      simp [hm]
    · rename_i m hm
      split at h
      · cases h
      · rename_i name hname
        injection h with h
        subst h
        simp [hm, hname, Scene.LegendAdd]
  · rw [if_neg hn] at h
    injection h with h
    subst h
    simp [hn]

/-! ## The loop over the series -/

/-- What a successful run of the loop has done to the scene. -/
theorem plotLoop_ok_inv {F : Type} (d : Deps F) (re : Regex) (n : Nat) (colors : List Color) :
    ∀ (ms : List SampleStream) (s : Nat) (p q : Scene F),
      plotLoop d re n colors s ms p = .ok q →
      ∃ ls : List (Line F), ls.length = ms.length ∧ q.plotters = p.plotters ++ ls ∧
        q.TitleText = p.TitleText ∧
        (∀ (i : Nat) (sample : SampleStream), ms[i]? = some sample →
          ∃ l, ls[i]? = some l ∧ seriesLine d colors (s + i) sample = .ok l) ∧
        q.legend = p.legend ++
          (if 1 < n then (ms.zip ls).filterMap (legendEntryOf d re) else []) ∧
        (1 < n → ∀ sample ∈ ms, ∀ m,
          re.FindStringSubmatch (d.metricString sample.Metric) = some m →
            ∃ name, m[1]? = some name) := by
  intro ms
  induction ms with
  | nil =>
    intro s p q h
    simp only [plotLoop] at h
    injection h with h
    subst h
    exact ⟨[], rfl, by simp, rfl, by intro i sample hi; simp at hi, by simp, by simp⟩
  | cons a as ih =>
    intro s p q h
    simp only [plotLoop] at h
    split at h
    · cases h
    · rename_i l hl
      split at h
      · cases h
      · rename_i p1 hp1
        obtain ⟨hpl, htitle, hleg, hgrp⟩ := seriesLegend_ok_inv d re n a l (p.Add l) p1 hp1
        obtain ⟨ls, hlen, hq, hqt, hline, hqleg, hqgrp⟩ := ih (s + 1) p1 q h
        refine ⟨l :: ls, by simp [hlen], ?_, ?_, ?_, ?_, ?_⟩
        · rw [hq, hpl]; simp [Scene.Add]
        · rw [hqt, htitle]; rfl
        · intro i sample hi
          cases i with
          | zero =>
            simp at hi
            subst hi
            exact ⟨l, by simp, by simpa using hl⟩
          | succ j =>
            simp at hi
            obtain ⟨l2, hl2, hs2⟩ := hline j sample hi
            refine ⟨l2, by simpa using hl2, ?_⟩
            have : s + (j + 1) = s + 1 + j := by omega
            rw [this]; exact hs2
        · rw [hqleg, hleg]
          by_cases hn : 1 < n
          · simp only [if_pos hn, List.zip_cons_cons, List.filterMap_cons, Scene.Add]
            cases hentry : legendEntryOf d re (a, l) <;> simp
          · simp [hn, Scene.Add]
        · intro hn sample hmem m hm
          rcases List.mem_cons.mp hmem with rfl | hmem
          · exact hgrp hn m hm
          · exact hqgrp hn sample hmem m hm

theorem plotLoop_append {F : Type} (d : Deps F) (re : Regex) (n : Nat) (colors : List Color)
    (rest : List SampleStream) :
    ∀ (pre : List SampleStream) (s : Nat) (p p1 : Scene F),
      plotLoop d re n colors s pre p = .ok p1 →
      plotLoop d re n colors s (pre ++ rest) p
        = plotLoop d re n colors (s + pre.length) rest p1 := by
  intro pre
  induction pre with
  | nil =>
    intro s p p1 h
    simp only [plotLoop] at h
    injection h with h
    subst h
    simp
  | cons a as ih =>
    intro s p p1 h
    simp only [plotLoop] at h
    split at h
    · cases h
    · rename_i l hl
      split at h
      · cases h
      · rename_i p2 hp2
        have hrec := ih (s + 1) p2 p1 h
        have e : s + 1 + as.length = s + (as.length + 1) := by omega
        rw [e] at hrec
        simp only [List.cons_append, plotLoop, hl, hp2, List.length_cons]
        exact hrec

/-- With the default pattern the loop runs to its end on series whose values all
parse and whose lines all build, given a palette of eight colours. -/
theorem plotLoop_total {F : Type} (d : Deps F) (n : Nat) (colors : List Color)
    (hlen : colors.length = paletteSize) :
    ∀ (ms : List SampleStream) (s : Nat) (p : Scene F),
      (∀ sample ∈ ms, AllParse d sample.Values ∧ LineBuilds d sample) →
      ∃ q, plotLoop d labelText n colors s ms p = .ok q := by
  intro ms
  induction ms with
  | nil =>
    intro s p _
    exact ⟨p, rfl⟩
  | cons a as ih =>
    intro s p h
    obtain ⟨hp, hl⟩ := h a (List.mem_cons_self a as)
    obtain ⟨l, hline⟩ := seriesLine_total d colors s a hlen hp hl
    have hleg : ∃ p1, seriesLegend d labelText n a l (p.Add l) = .ok p1 := by
      by_cases hn : 1 < n
      · exact ⟨_, seriesLegend_labelText d n a l (p.Add l) hn⟩
      · exact ⟨_, seriesLegend_le_one d labelText n a l (p.Add l) (by omega)⟩
    obtain ⟨p1, hp1⟩ := hleg
    obtain ⟨q, hq⟩ := ih (s + 1) p1 (fun x hx => h x (List.mem_cons_of_mem a hx))
    exact ⟨q, by simp only [plotLoop, hline, hp1, hq]⟩

/-! ## `Plot` as a whole -/

theorem Plot_ok_inv {F : Type} (d : Deps F) (re : Regex) (ms : Matrix) (title format : String)
    (chart : Chart F) (h : Plot d re ms title format = .ok chart) :
    ∃ titleFont textFont colors,
      d.makeFont "Helvetica-Bold" ⟨1, .centimeter⟩ = .ok titleFont ∧
      d.makeFont "Helvetica" ⟨3, .millimeter⟩ = .ok textFont ∧
      d.getPalette "Dark2" paletteSize = .ok colors ∧
      plotLoop d re ms.length colors 0 ms (styled title titleFont textFont) = .ok chart.scene ∧
      d.canvasErr ⟨24, .centimeter⟩ ⟨20, .centimeter⟩ format = none ∧
      chart.canvas.format = format ∧ d.drawPanic chart = none := by
  unfold Plot at h
  split at h
  · cases h
  · rename_i tf htf
    split at h
    · cases h
    · rename_i xf hxf
      split at h
      · cases h
      · rename_i colors hcol
        split at h
        · cases h
        · rename_i p hp
          simp only at h
          split at h
          · cases h
          · rename_i hc
            split at h
            · cases h
            · rename_i hdraw
              injection h with h
              subst h
              exact ⟨tf, xf, colors, htf, hxf, hcol, hp, hc, rfl, hdraw⟩

theorem Plot_of_loop {F : Type} (d : Deps F) (re : Regex) (ms : Matrix) (title format : String)
    (titleFont textFont : Font) (colors : List Color)
    (h1 : d.makeFont "Helvetica-Bold" ⟨1, .centimeter⟩ = .ok titleFont)
    (h2 : d.makeFont "Helvetica" ⟨3, .millimeter⟩ = .ok textFont)
    (h3 : d.getPalette "Dark2" paletteSize = .ok colors) :
    Plot d re ms title format =
      match plotLoop d re ms.length colors 0 ms (styled title titleFont textFont) with
      | .error e => .error e
      | .ok p =>
        match d.canvasErr ⟨24, .centimeter⟩ ⟨20, .centimeter⟩ format with
        | some err => .error (.createCanvas err)
        | none =>
          match d.drawPanic
              { canvas := { width := ⟨24, .centimeter⟩, height := ⟨20, .centimeter⟩,
                            format := format },
                left := ⟨6, .millimeter⟩, right := Length.neg ⟨6, .millimeter⟩,
                bottom := ⟨6, .millimeter⟩, top := Length.neg ⟨6, .millimeter⟩,
                scene := p } with
          | some msg => .error (.drawPanic msg)
          | none =>
            .ok { canvas := { width := ⟨24, .centimeter⟩, height := ⟨20, .centimeter⟩,
                              format := format },
                  left := ⟨6, .millimeter⟩, right := Length.neg ⟨6, .millimeter⟩,
                  bottom := ⟨6, .millimeter⟩, top := Length.neg ⟨6, .millimeter⟩,
                  scene := p } := by
  unfold Plot
  simp only [h1, h2, h3]

/-- The literal of `overflowBound` is `2 ^ 1024 - 2 ^ 970`. -/
theorem overflowBound_eq : overflowBound = 2 ^ 1024 - 2 ^ 970 := by
  unfold overflowBound
  norm_num

/-- A series whose points evaluate to `pts`, on which line construction
succeeds, builds its line. -/
theorem lineBuilds_of_eval {F : Type} (d : Deps F) (sample : SampleStream)
    (pts : List (F × F)) (h1 : buildXYs d sample.Values = .ok pts)
    (h2 : d.newLineErr pts = none) : LineBuilds d sample := by
  intro data h
  rw [h1] at h
  injection h with h
  subst h
  exact h2

/-! ## Colours (C1) -/

/-- C1: when `Plot` succeeds on `n` series, the scene has `n` lines, the line of
the series at index `i` has colour `colors[i mod 8]` of the palette obtained for
this call, and two lines whose indices differ by a multiple of 8 have the same
colour. -/
theorem Plot_line_colour_cycles {F : Type} (d : Deps F) (re : Regex) (ms : Matrix)
    (title format : String) (chart : Chart F) (h : Plot d re ms title format = .ok chart) :
    ∃ colors, d.getPalette "Dark2" 8 = .ok colors ∧
      chart.scene.plotters.length = ms.length ∧
      (∀ i : Nat, i < ms.length →
        ∃ l c, chart.scene.plotters[i]? = some l ∧ colors[i % 8]? = some c ∧ l.Color = c) ∧
      (∀ i j : Nat, i < ms.length → j < ms.length → (8 : Int) ∣ (i : Int) - (j : Int) →
        ∃ li lj, chart.scene.plotters[i]? = some li ∧ chart.scene.plotters[j]? = some lj ∧
          li.Color = lj.Color) := by
  obtain ⟨tf, xf, colors, _, _, hcol, hloop, _, _, _⟩ := Plot_ok_inv d re ms title format chart h
  obtain ⟨ls, hlen, hpl, _, hline, _, _⟩ := plotLoop_ok_inv d re ms.length colors ms 0 _ _ hloop
  have hpl2 : chart.scene.plotters = ls := by rw [hpl]; simp [styled, Scene.New]
  have key : ∀ i, i < ms.length →
      ∃ l c, chart.scene.plotters[i]? = some l ∧ colors[i % 8]? = some c ∧ l.Color = c := by
    intro i hi
    obtain ⟨l, hl, hs⟩ := hline i ms[i] (List.getElem?_eq_getElem hi)
    obtain ⟨data, c, _, _, hc, hlc⟩ := seriesLine_ok_inv d colors (0 + i) ms[i] l hs
    refine ⟨l, c, by rw [hpl2]; exact hl, ?_, by rw [hlc]⟩
    simpa [paletteSize] using hc
  refine ⟨colors, hcol, by rw [hpl2]; exact hlen, key, ?_⟩
  intro i j hi hj hdvd
  obtain ⟨li, ci, hli, hci, hlci⟩ := key i hi
  obtain ⟨lj, cj, hlj, hcj, hlcj⟩ := key j hj
  have hmod : i % 8 = j % 8 := by omega
  refine ⟨li, lj, hli, hlj, ?_⟩
  rw [hmod, hcj] at hci
  injection hci with hci
  rw [hlci, hlcj, hci]

/-- Nine series with one sample each. -/
theorem nineSeries_builds :
    ∃ chart, Plot lenientDeps labelText
      (List.replicate 9 (seriesNamed "up" [sampleAt 1 "1"])) "T" "png" = .ok chart :=
  ⟨_, rfl⟩

/-- C1 at nine series: the first and the ninth line share the first colour of
Dark2. -/
theorem Plot_line_colour_cycles_witness :
    ∃ chart, Plot lenientDeps labelText
        (List.replicate 9 (seriesNamed "up" [sampleAt 1 "1"])) "T" "png" = .ok chart ∧
      ∃ colors, lenientDeps.getPalette "Dark2" 8 = .ok colors ∧
        chart.scene.plotters.length = 9 ∧
        (∀ i : Nat, i < 9 →
          ∃ l c, chart.scene.plotters[i]? = some l ∧ colors[i % 8]? = some c ∧ l.Color = c) ∧
        (∀ i j : Nat, i < 9 → j < 9 → (8 : Int) ∣ (i : Int) - (j : Int) →
          ∃ li lj, chart.scene.plotters[i]? = some li ∧ chart.scene.plotters[j]? = some lj ∧
            li.Color = lj.Color) := by
  obtain ⟨chart, h⟩ := nineSeries_builds
  exact ⟨chart, h, Plot_line_colour_cycles lenientDeps labelText _ "T" "png" chart h⟩

/-! ## Unparseable samples (C2) -/

/-- C2: with both fonts and the eight-colour palette available, if the series
before `bad` all parse and build their lines, and in `bad` the samples before
`v` parse while the text of `v` does not, then `Plot` returns no chart but the
error "sample value not float" carrying the raw text of `v`, whatever comes
after `v`. -/
theorem Plot_first_bad_sample {F : Type} (d : Deps F) (title format : String)
    (titleFont textFont : Font) (colors : List Color)
    (pre post : List SampleStream) (metric : Metric) (vs1 vs2 : List SamplePair)
    (v : SamplePair) (e : String)
    (h1 : d.makeFont "Helvetica-Bold" ⟨1, .centimeter⟩ = .ok titleFont)
    (h2 : d.makeFont "Helvetica" ⟨3, .millimeter⟩ = .ok textFont)
    (h3 : d.getPalette "Dark2" paletteSize = .ok colors)
    (hlen : colors.length = paletteSize)
    (hpre : ∀ sample ∈ pre, AllParse d sample.Values ∧ LineBuilds d sample)
    (hvs1 : AllParse d vs1)
    (hv : d.parseFloat v.Value.String = .error e) :
    Plot d labelText (pre ++ { Metric := metric, Values := vs1 ++ v :: vs2 } :: post)
        title format = .error (.sampleNotFloat v.Value.String) ∧
      (Failure.sampleNotFloat v.Value.String).Error
        = "sample value not float: " ++ v.Value.String := by
  refine ⟨?_, rfl⟩
  rw [Plot_of_loop d labelText _ title format titleFont textFont colors h1 h2 h3]
  obtain ⟨p1, hp1⟩ := plotLoop_total d
    (pre ++ { Metric := metric, Values := vs1 ++ v :: vs2 } :: post).length colors hlen pre 0
    (styled title titleFont textFont) hpre
  rw [plotLoop_append d labelText _ colors _ pre 0 _ p1 hp1]
  simp only [plotLoop, seriesLine, buildXYs_bad d v vs2 e hv vs1 hvs1]

/-- C2 on a series list whose first bad text is "abc": a good series, then a
series with a good sample followed by "abc", then a series with "xyz". -/
theorem Plot_first_bad_sample_witness :
    Plot refDeps labelText
        [seriesNamed "up" [sampleAt 1 "1"],
         seriesNamed "down" [sampleAt 1 "2.5", sampleAt 2 "abc", sampleAt 3 "4"],
         seriesNamed "late" [sampleAt 1 "xyz"]] "T" "png"
        = .error (.sampleNotFloat "abc") ∧
      (Failure.sampleNotFloat "abc").Error = "sample value not float: " ++ "abc" :=
  Plot_first_bad_sample refDeps "T" "png" ⟨"Helvetica-Bold", ⟨1, .centimeter⟩⟩
    ⟨"Helvetica", ⟨3, .millimeter⟩⟩ dark2
    [seriesNamed "up" [sampleAt 1 "1"]] [seriesNamed "late" [sampleAt 1 "xyz"]]
    [("__name__", "down")] [sampleAt 1 "2.5"] [sampleAt 3 "4"] (sampleAt 2 "abc")
    (parseError "abc" "invalid syntax") rfl rfl rfl rfl
    (by
      intro sample hs
      simp only [List.mem_singleton] at hs
      subst hs
      refine ⟨?_, lineBuilds_of_eval _ _ _ rfl rfl⟩
      intro x hx
      simp only [seriesNamed, List.mem_singleton] at hx
      subst hx
      exact ⟨_, rfl⟩)
    (by
      intro x hx
      simp only [List.mem_singleton] at hx
      subst hx
      exact ⟨_, rfl⟩)
    rfl

/-! ## Legend (C3, C4, C10) -/

theorem legendEntryOf_labelText {F : Type} (d : Deps F) (x : SampleStream × Line F) :
    legendEntryOf d labelText x
      = some { text := firstLine (d.metricString x.1.Metric), thumbs := [x.2] } := by
  unfold legendEntryOf
  rw [labelText_find]
  simp

theorem filterMap_legend_labelText {F : Type} (d : Deps F) :
    ∀ xs : List (SampleStream × Line F),
      (xs.filterMap (legendEntryOf d labelText)).length = xs.length := by
  intro xs
  induction xs with
  | nil => rfl
  | cons x xs ih => simp [List.filterMap_cons, legendEntryOf_labelText, ih]

/-- C3: when `Plot` succeeds on `n` series, a list of at most one series leaves
the legend empty whatever the labels and the pattern are, so a non-empty legend
means `n > 1`; and with the default pattern and `n > 1` the legend has exactly
one entry per series, hence is not empty. -/
theorem Plot_legend_iff_many {F : Type} (d : Deps F) (re : Regex) (ms : Matrix)
    (title format : String) (chart : Chart F) (h : Plot d re ms title format = .ok chart) :
    (ms.length ≤ 1 → chart.scene.legend = []) ∧
      (chart.scene.legend ≠ [] → 1 < ms.length) ∧
      (re = labelText → 1 < ms.length →
        chart.scene.legend.length = ms.length ∧ chart.scene.legend ≠ []) := by
  obtain ⟨tf, xf, colors, _, _, _, hloop, _, _, _⟩ := Plot_ok_inv d re ms title format chart h
  obtain ⟨ls, hlen, _, _, _, hleg, _⟩ := plotLoop_ok_inv d re ms.length colors ms 0 _ _ hloop
  have hleg2 : chart.scene.legend
      = if 1 < ms.length then (ms.zip ls).filterMap (legendEntryOf d re) else [] := by
    rw [hleg]; simp [styled, Scene.New]
  have hsmall : ms.length ≤ 1 → chart.scene.legend = [] := by
    intro hn
    rw [hleg2, if_neg (by omega)]
  refine ⟨hsmall, ?_, ?_⟩
  · intro hne
    by_contra hn
    exact hne (hsmall (by omega))
  · intro hre hn
    subst hre
    have hl : chart.scene.legend.length = ms.length := by
      rw [hleg2, if_pos hn, filterMap_legend_labelText, List.length_zip, hlen]
      simp
    refine ⟨hl, ?_⟩
    intro hnil
    rw [hnil] at hl
    simp at hl
    omega

/-- Two series, default pattern. -/
theorem twoSeries_builds :
    ∃ chart, Plot lenientDeps labelText
      [seriesNamed "up" [sampleAt 1 "1"], seriesNamed "down" [sampleAt 1 "2"]]
      "T" "png" = .ok chart :=
  ⟨_, rfl⟩

/-- C3 at two series with the default pattern: the legend has two entries. -/
theorem Plot_legend_iff_many_witness :
    ∃ chart, Plot lenientDeps labelText
        [seriesNamed "up" [sampleAt 1 "1"], seriesNamed "down" [sampleAt 1 "2"]]
        "T" "png" = .ok chart ∧
      chart.scene.legend.length = 2 ∧ chart.scene.legend ≠ [] := by
  obtain ⟨chart, h⟩ := twoSeries_builds
  exact ⟨chart, h,
    (Plot_legend_iff_many lenientDeps labelText _ "T" "png" chart h).2.2 rfl (by decide)⟩

/-- C4: when `Plot` succeeds on more than one series, for any pattern, the scene
has one line per series in series order (the line built for that series at its
own index), the legend is, in series order, the entry of each series whose
rendered label matches, with the first group as text and that series' own line
as thumbnail, and every match did have a first group. -/
theorem Plot_lines_and_legend {F : Type} (d : Deps F) (re : Regex) (ms : Matrix)
    (title format : String) (chart : Chart F) (h : Plot d re ms title format = .ok chart)
    (hn : 1 < ms.length) :
    chart.scene.plotters.length = ms.length ∧
      (∃ colors, d.getPalette "Dark2" 8 = .ok colors ∧
        ∀ (i : Nat) (sample : SampleStream), ms[i]? = some sample →
          ∃ l, chart.scene.plotters[i]? = some l ∧ seriesLine d colors i sample = .ok l) ∧
      chart.scene.legend = (ms.zip chart.scene.plotters).filterMap (legendEntryOf d re) ∧
      (∀ sample ∈ ms, ∀ m, re.FindStringSubmatch (d.metricString sample.Metric) = some m →
        ∃ name, m[1]? = some name) := by
  obtain ⟨tf, xf, colors, _, _, hcol, hloop, _, _, _⟩ := Plot_ok_inv d re ms title format chart h
  obtain ⟨ls, hlen, hpl, _, hline, hleg, hgrp⟩ :=
    plotLoop_ok_inv d re ms.length colors ms 0 _ _ hloop
  have hpl2 : chart.scene.plotters = ls := by rw [hpl]; simp [styled, Scene.New]
  refine ⟨by rw [hpl2]; exact hlen, ⟨colors, hcol, ?_⟩, ?_, hgrp hn⟩
  · intro i sample hi
    obtain ⟨l, hl, hs⟩ := hline i sample hi
    refine ⟨l, by rw [hpl2]; exact hl, ?_⟩
    simpa using hs
  · rw [hleg, hpl2, if_pos hn]
    simp [styled, Scene.New]

/-- Two series, only the first of which has a label matching `u(.*)`. -/
theorem afterU_builds :
    ∃ chart, Plot lenientDeps afterU
      [seriesNamed "up" [sampleAt 1 "1"], seriesNamed "down" [sampleAt 1 "2"]]
      "T" "png" = .ok chart ∧
      chart.scene.legend.map (fun en => en.text) = ["p"] :=
  ⟨_, rfl, rfl⟩

/-- C4 at two series of which one label matches: two lines, one legend entry. -/
theorem Plot_lines_and_legend_witness :
    ∃ chart, Plot lenientDeps afterU
        [seriesNamed "up" [sampleAt 1 "1"], seriesNamed "down" [sampleAt 1 "2"]]
        "T" "png" = .ok chart ∧
      chart.scene.legend.map (fun en => en.text) = ["p"] ∧
      chart.scene.plotters.length = 2 ∧
      chart.scene.legend =
        (List.zip [seriesNamed "up" [sampleAt 1 "1"], seriesNamed "down" [sampleAt 1 "2"]]
          chart.scene.plotters).filterMap (legendEntryOf lenientDeps afterU) := by
  obtain ⟨chart, h, ht⟩ := afterU_builds
  have key := Plot_lines_and_legend lenientDeps afterU _ "T" "png" chart h (by decide)
  exact ⟨chart, h, ht, key.1, key.2.2.1⟩

/-! ## Points (C5) -/

/-- C5: for a series whose value texts all parse, the point list built for it
exists, has one point per sample, its `k`-th point is the `k`-th sample's
timestamp in seconds paired with the parsed value of the `k`-th sample's text,
and a line built for the series holds exactly these points. -/
theorem buildXYs_points {F : Type} (d : Deps F) (vs : List SamplePair)
    (hparse : AllParse d vs) :
    ∃ pts, buildXYs d vs = .ok pts ∧ pts.length = vs.length ∧
      (∀ (k : Nat) (v : SamplePair), vs[k]? = some v →
        ∃ y, d.parseFloat v.Value.String = .ok y ∧
          pts[k]? = some (d.float64 v.Timestamp.Unix, y)) ∧
      (∀ (colors : List Color) (s : Nat) (metric : Metric) (l : Line F),
        seriesLine d colors s { Metric := metric, Values := vs } = .ok l → l.XYs = pts) := by
  obtain ⟨pts, hpts, hlen, hk⟩ := buildXYs_of_parse d vs hparse
  refine ⟨pts, hpts, hlen, hk, ?_⟩
  intro colors s metric l hl
  obtain ⟨data, c, hdata, _, _, hlc⟩ := seriesLine_ok_inv d colors s _ l hl
  simp only at hdata
  rw [hpts] at hdata
  injection hdata with hdata
  rw [hlc, hdata]

/-- C5 on three samples given out of chronological order: the points keep the
order given. -/
theorem buildXYs_points_witness :
    ∃ pts, buildXYs refDeps [sampleAt 30 "1.5", sampleAt 10 "-2", sampleAt 20 "7"] = .ok pts ∧
      pts = [(.fin ⟨30, 0⟩, .fin ⟨15, 1⟩), (.fin ⟨10, 0⟩, .fin ⟨-2, 0⟩),
        (.fin ⟨20, 0⟩, .fin ⟨7, 0⟩)] ∧
      pts.length = 3 := by
  have hp : AllParse refDeps [sampleAt 30 "1.5", sampleAt 10 "-2", sampleAt 20 "7"] := by
    intro v hv
    simp only [List.mem_cons, List.mem_singleton, List.not_mem_nil, or_false] at hv
    rcases hv with rfl | rfl | rfl <;> exact ⟨_, rfl⟩
  obtain ⟨pts, h, hlen, _⟩ := buildXYs_points refDeps _ hp
  refine ⟨pts, h, ?_, hlen⟩
  have h2 : buildXYs refDeps [sampleAt 30 "1.5", sampleAt 10 "-2", sampleAt 20 "7"]
      = .ok [(.fin ⟨30, 0⟩, .fin ⟨15, 1⟩), (.fin ⟨10, 0⟩, .fin ⟨-2, 0⟩),
        (.fin ⟨20, 0⟩, .fin ⟨7, 0⟩)] := rfl
  rw [h2] at h
  injection h with h
  exact h.symm

/-! ## Unsupported formats (C6) -/

/-- C6 fails as stated: on a series with the value text "abc" and the
unsupported format "doesnotexist", `Plot` returns the sample-value error, not
the canvas error. -/
theorem Plot_unsupported_format_counterexample :
    refDeps.canvasErr ⟨24, .centimeter⟩ ⟨20, .centimeter⟩ "doesnotexist"
        = some "unsupported format: \x22doesnotexist\x22" ∧
      Plot refDeps labelText [seriesNamed "up" [sampleAt 1 "abc"]] "T" "doesnotexist"
        = .error (.sampleNotFloat "abc") ∧
      ¬ ∃ cause, Plot refDeps labelText [seriesNamed "up" [sampleAt 1 "abc"]] "T" "doesnotexist"
        = .error (.createCanvas cause) := by
  refine ⟨rfl, rfl, ?_⟩
  rintro ⟨cause, h⟩
  have h2 : Plot refDeps labelText [seriesNamed "up" [sampleAt 1 "abc"]] "T" "doesnotexist"
      = .error (.sampleNotFloat "abc") := rfl
  rw [h2] at h
  injection h with h
  cases h

/-- C6, amended: with both fonts and the eight-colour palette available, on a
series list whose values all parse and whose lines all build, a format the
backend does not support makes `Plot` return no chart but the canvas-creation
error with the backend's cause. -/
theorem Plot_unsupported_format {F : Type} (d : Deps F) (ms : Matrix) (title format : String)
    (titleFont textFont : Font) (colors : List Color) (cause : String)
    (h1 : d.makeFont "Helvetica-Bold" ⟨1, .centimeter⟩ = .ok titleFont)
    (h2 : d.makeFont "Helvetica" ⟨3, .millimeter⟩ = .ok textFont)
    (h3 : d.getPalette "Dark2" paletteSize = .ok colors)
    (hlen : colors.length = paletteSize)
    (hgood : ∀ sample ∈ ms, AllParse d sample.Values ∧ LineBuilds d sample)
    (hfmt : d.canvasErr ⟨24, .centimeter⟩ ⟨20, .centimeter⟩ format = some cause) :
    Plot d labelText ms title format = .error (.createCanvas cause) := by
  rw [Plot_of_loop d labelText ms title format titleFont textFont colors h1 h2 h3]
  obtain ⟨q, hq⟩ := plotLoop_total d ms.length colors hlen ms 0
    (styled title titleFont textFont) hgood
  simp only [hq, hfmt]

/-- C6, amended, on one good series and the format "doesnotexist". -/
theorem Plot_unsupported_format_witness :
    Plot refDeps labelText [seriesNamed "up" [sampleAt 1 "1"]] "T" "doesnotexist"
      = .error (.createCanvas "unsupported format: \x22doesnotexist\x22") :=
  Plot_unsupported_format refDeps [seriesNamed "up" [sampleAt 1 "1"]] "T" "doesnotexist"
    ⟨"Helvetica-Bold", ⟨1, .centimeter⟩⟩ ⟨"Helvetica", ⟨3, .millimeter⟩⟩ dark2
    "unsupported format: \x22doesnotexist\x22" rfl rfl rfl rfl
    (by
      intro sample hs
      simp only [List.mem_singleton] at hs
      subst hs
      refine ⟨?_, lineBuilds_of_eval _ _ _ rfl rfl⟩
      intro x hx
      simp only [seriesNamed, List.mem_singleton] at hx
      subst hx
      exact ⟨_, rfl⟩)
    rfl

/-! ## `PlotFile` (C7, C8) -/

/-- A successful `PlotFile` leaves at `name` the encoded chart written over the
start of the previous content. -/
theorem PlotFile_content {F : Type} (d : Deps F) (re : Regex) (ms : Matrix)
    (title format name : String) (fs : FS) (w : Chart F)
    (hplot : Plot d re ms title format = .ok w)
    (hopen : d.openErr fs name = none)
    (hwrite : d.writeErr fs name (d.encode w) = none) :
    PlotFile d re ms title format name fs
      = (none, fs.put name (overwrite ((fs.files name).getD []) (d.encode w))) := by
  unfold PlotFile
  simp only [hplot, hopen, hwrite]

/-- When the file is absent, or not longer than the encoded chart, the content
after a successful `PlotFile` is exactly the encoded chart. -/
theorem PlotFile_content_short {F : Type} (d : Deps F) (re : Regex) (ms : Matrix)
    (title format name : String) (fs : FS) (w : Chart F)
    (hplot : Plot d re ms title format = .ok w)
    (hopen : d.openErr fs name = none)
    (hwrite : d.writeErr fs name (d.encode w) = none)
    (hshort : ((fs.files name).getD []).length ≤ (d.encode w).length) :
    (PlotFile d re ms title format name fs).2.files name = some (d.encode w) := by
  rw [PlotFile_content d re ms title format name fs w hplot hopen hwrite]
  simp [FS.put, overwrite, List.drop_eq_nil_of_le hshort]

/-- C7 fails on the code: when the file exists with content `old` longer than
the encoded chart, a successful `PlotFile` leaves the encoded chart followed by
the tail of `old`, which is not the encoded chart. -/
theorem PlotFile_keeps_old_tail {F : Type} (d : Deps F) (re : Regex) (ms : Matrix)
    (title format name : String) (fs : FS) (w : Chart F) (old : List Nat)
    (hplot : Plot d re ms title format = .ok w)
    (hopen : d.openErr fs name = none)
    (hwrite : d.writeErr fs name (d.encode w) = none)
    (hold : fs.files name = some old)
    (hlong : (d.encode w).length < old.length) :
    (PlotFile d re ms title format name fs).1 = none ∧
      (PlotFile d re ms title format name fs).2.files name
        = some (d.encode w ++ old.drop (d.encode w).length) ∧
      (PlotFile d re ms title format name fs).2.files name ≠ some (d.encode w) := by
  rw [PlotFile_content d re ms title format name fs w hplot hopen hwrite]
  refine ⟨rfl, by simp [FS.put, overwrite, hold], ?_⟩
  simp only [FS.put, overwrite, hold, if_true, Option.getD_some, ne_eq, Option.some.injEq]
  intro h
  have hl := congrArg List.length h
  simp only [List.length_append, List.length_drop] at hl
  omega

/-- One series drawn on the backend whose `Draw` completes. -/
theorem oneSeries_builds :
    ∃ w, Plot lenientDeps labelText [seriesNamed "up" [sampleAt 1 "1"]] "T" "png" = .ok w ∧
      (lenientDeps.encode w).length = 59 :=
  ⟨_, rfl, rfl⟩

/-- C7 at an existing file of one mebibyte: after `PlotFile` the file holds the
encoded chart followed by what the old content had beyond the chart's length. -/
theorem PlotFile_keeps_old_tail_witness :
    ∃ w, Plot lenientDeps labelText [seriesNamed "up" [sampleAt 1 "1"]] "T" "png" = .ok w ∧
      (lenientDeps.encode w).length < mebibyte.length ∧
      (PlotFile lenientDeps labelText [seriesNamed "up" [sampleAt 1 "1"]] "T" "png" "out.png"
        (FS.single "out.png" mebibyte)).1 = none ∧
      (PlotFile lenientDeps labelText [seriesNamed "up" [sampleAt 1 "1"]] "T" "png" "out.png"
        (FS.single "out.png" mebibyte)).2.files "out.png"
        = some (lenientDeps.encode w ++ mebibyte.drop (lenientDeps.encode w).length) ∧
      (PlotFile lenientDeps labelText [seriesNamed "up" [sampleAt 1 "1"]] "T" "png" "out.png"
        (FS.single "out.png" mebibyte)).2.files "out.png" ≠ some (lenientDeps.encode w) := by
  obtain ⟨w, hw, hlen⟩ := oneSeries_builds
  have hlong : (lenientDeps.encode w).length < mebibyte.length := by
    rw [hlen, mebibyte, List.length_replicate]
    decide
  exact ⟨w, hw, hlong,
    PlotFile_keeps_old_tail lenientDeps labelText [seriesNamed "up" [sampleAt 1 "1"]]
      "T" "png" "out.png" (FS.single "out.png" mebibyte) w mebibyte hw rfl rfl rfl hlong⟩

/-- C8: when `Plot` fails, `PlotFile` returns the same error and leaves the file
system as it was. -/
theorem PlotFile_of_Plot_error {F : Type} (d : Deps F) (re : Regex) (ms : Matrix)
    (title format name : String) (fs : FS) (e : Failure)
    (h : Plot d re ms title format = .error e) :
    PlotFile d re ms title format name fs = (some e, fs) := by
  unfold PlotFile
  simp only [h]

/-- C8 at the format "doesnotexist": the canvas error comes back and the file
system, here with an existing file at the path, is the same. -/
theorem PlotFile_of_Plot_error_witness :
    PlotFile refDeps labelText [] "Empty" "doesnotexist" "out.png" (FS.single "out.png" [1, 2, 3])
      = (some (.createCanvas "unsupported format: \x22doesnotexist\x22"),
         FS.single "out.png" [1, 2, 3]) :=
  PlotFile_of_Plot_error refDeps labelText [] "Empty" "doesnotexist" "out.png"
    (FS.single "out.png" [1, 2, 3]) (.createCanvas "unsupported format: \x22doesnotexist\x22") rfl

/-! ## The empty series list (C9) -/

/-- What C9 asks for holds whenever `Draw` completes: on the empty series list,
with both fonts and the palette available and a format the backend supports,
`Plot` returns a chart with no line, no legend entry, and the given title. -/
theorem Plot_empty_when_drawn {F : Type} (d : Deps F) (re : Regex) (title format : String)
    (titleFont textFont : Font) (colors : List Color)
    (h1 : d.makeFont "Helvetica-Bold" ⟨1, .centimeter⟩ = .ok titleFont)
    (h2 : d.makeFont "Helvetica" ⟨3, .millimeter⟩ = .ok textFont)
    (h3 : d.getPalette "Dark2" paletteSize = .ok colors)
    (hfmt : d.canvasErr ⟨24, .centimeter⟩ ⟨20, .centimeter⟩ format = none)
    (hdraw : ∀ ch : Chart F, d.drawPanic ch = none) :
    ∃ chart, Plot d re [] title format = .ok chart ∧
      chart.scene.plotters = [] ∧ chart.scene.legend = [] ∧
      chart.scene.TitleText = title := by
  rw [Plot_of_loop d re [] title format titleFont textFont colors h1 h2 h3]
  simp only [plotLoop, hfmt, hdraw]
  exact ⟨_, rfl, rfl, rfl, rfl⟩

/-- C9 fails on the code: on the empty series list, with both fonts and the
palette available and a format the backend supports, a non-empty title makes
`Plot` end in the panic of `Draw`, whose title style has lost its handler at
plot.go:37, on every backend whose `Draw` calls that handler; `Plot` returns no
chart. -/
theorem Plot_empty_panics_in_Draw {F : Type} (d : Deps F) (re : Regex)
    (title format : String) (titleFont textFont : Font) (colors : List Color)
    (h1 : d.makeFont "Helvetica-Bold" ⟨1, .centimeter⟩ = .ok titleFont)
    (h2 : d.makeFont "Helvetica" ⟨3, .millimeter⟩ = .ok textFont)
    (h3 : d.getPalette "Dark2" paletteSize = .ok colors)
    (hfmt : d.canvasErr ⟨24, .centimeter⟩ ⟨20, .centimeter⟩ format = none)
    (htitle : title ≠ "")
    (hdraw : DrawCallsTitleHandler d) :
    (∃ msg, Plot d re [] title format = .error (.drawPanic msg)) ∧
      ∀ chart, Plot d re [] title format ≠ .ok chart := by
  rw [Plot_of_loop d re [] title format titleFont textFont colors h1 h2 h3]
  simp only [plotLoop, hfmt]
  obtain ⟨msg, hmsg⟩ := hdraw
    { canvas := { width := ⟨24, .centimeter⟩, height := ⟨20, .centimeter⟩, format := format },
      left := ⟨6, .millimeter⟩, right := Length.neg ⟨6, .millimeter⟩,
      bottom := ⟨6, .millimeter⟩, top := Length.neg ⟨6, .millimeter⟩,
      scene := styled title titleFont textFont } htitle rfl
  rw [hmsg]
  exact ⟨⟨msg, rfl⟩, fun chart h => by cases h⟩

/-- C9 at the title "Empty" and the format "png" on the reference backend: the
call ends in a nil pointer dereference. -/
theorem Plot_empty_panics_in_Draw_witness :
    Plot refDeps labelText [] "Empty" "png"
        = .error (.drawPanic "invalid memory address or nil pointer dereference") ∧
      (∃ msg, Plot refDeps labelText [] "Empty" "png" = .error (.drawPanic msg)) ∧
      ∀ chart, Plot refDeps labelText [] "Empty" "png" ≠ .ok chart :=
  ⟨rfl, Plot_empty_panics_in_Draw refDeps labelText "Empty" "png"
    ⟨"Helvetica-Bold", ⟨1, .centimeter⟩⟩ ⟨"Helvetica", ⟨3, .millimeter⟩⟩ dark2
    rfl rfl rfl rfl (by decide)
    (by
      intro ch ht hh
      refine ⟨"invalid memory address or nil pointer dereference", ?_⟩
      have hn : nilHandlerCalled ch.scene = true := by
        simp [nilHandlerCalled, ht, hh]
      simp [refDeps, hn])⟩

/-! ## The default pattern (C10) -/

/-- C10 fails as stated: on the text "up", line feed, "down" the default
pattern captures "up" only, so it is not the identity on every text. -/
theorem labelText_identity_counterexample :
    labelText.FindStringSubmatch "up\ndown" = some ["up", "up"] ∧
      (seriesLegend refDeps labelText 2 (seriesNamed "up\ndown" [sampleAt 1 "1"])
          ⟨[], ⟨1, .point⟩, ⟨27, 158, 119, 255⟩⟩ (Scene.New Float64)).toOption.map
          (fun p => p.legend.map (fun en => en.text))
        = some ["up"] ∧
      ¬ ∀ s : String, ∃ m, labelText.FindStringSubmatch s = some m ∧ m[1]? = some s := by
  refine ⟨rfl, rfl, ?_⟩
  intro h
  obtain ⟨m, hm, h1⟩ := h "up\ndown"
  have h2 : labelText.FindStringSubmatch "up\ndown" = some ["up", "up"] := rfl
  rw [h2] at hm
  injection hm with hm
  subst hm
  revert h1
  decide

/-- C10, amended: on a text without a line feed the default pattern matches and
its first group is the whole text, so the legend entry `Plot` adds for a series
whose rendered label has no line feed carries the full label. -/
theorem labelText_identity_on_lines (s : String) (h : lineFeed ∉ s.data) :
    labelText.FindStringSubmatch s = some [s, s] ∧
      ∀ (F : Type) (d : Deps F) (n : Nat) (sample : SampleStream) (l : Line F) (p : Scene F),
        1 < n → d.metricString sample.Metric = s →
          seriesLegend d labelText n sample l p = .ok (p.LegendAdd s l) := by
  have hs := firstLine_eq_self s h
  refine ⟨by rw [labelText_find, hs], ?_⟩
  intro F d n sample l p hn hm
  rw [seriesLegend_labelText d n sample l p hn, hm, hs]

/-- C10, amended, at the label "up". -/
theorem labelText_identity_on_lines_witness :
    labelText.FindStringSubmatch "up" = some ["up", "up"] :=
  (labelText_identity_on_lines "up" (by decide)).1

end PlotGo
